import Mathlib

/-!
Verification of the Cross-Document Reconciliation Engine: a shallow embedding
of `app/utils/normalizers.py` and `app/services/validator.py` (the field
normalizers, the list comparator, the seven check executors and the verdict
aggregator), together with theorems settling the stated properties.

Python strings are modelled as Lean `String` (with cores working on
`List Char`); the ASCII fragments of `str.strip`, `str.upper`, `str.isdigit`
and the regex character classes used by the source are modelled explicitly
below.  Python dicts produced by `extract_data_by_file_type` are modelled as
records whose list fields default to `[]` (a missing key read with
`.get(k, [])`).  The one code path that can raise (`_validate_revisions`,
whose list comprehension indexes `t_rev[0]`) is modelled in `Except`.
-/

namespace QC

/-- Whitespace recognised by Python `str.strip` / `\s`, restricted to ASCII. -/
def isPySpace (c : Char) : Bool :=
  c == ' ' || c == '\t' || c == '\n' || c == '\r' || c == '\x0b' || c == '\x0c'

/-- ASCII decimal digit, the model of the regex class `\d` and of the digits
accepted by `re.sub(r'\D', '', s)`. -/
def pyIsDigit (c : Char) : Bool :=
  decide ('0' ≤ c) && decide (c ≤ '9')

/-- The regex character class `[A-Z]` used by `normalize_part_number`. -/
def isUpperAZ (c : Char) : Bool :=
  decide ('A' ≤ c) && decide (c ≤ 'Z')

/-- The regex character class `[-_]` used in the serial and part patterns. -/
def isSep (c : Char) : Bool :=
  c == '-' || c == '_'

/-- Lookup table for ASCII lower-to-upper case mapping. -/
def lowerUpper : List (Char × Char) :=
  [('a', 'A'), ('b', 'B'), ('c', 'C'), ('d', 'D'), ('e', 'E'), ('f', 'F'),
   ('g', 'G'), ('h', 'H'), ('i', 'I'), ('j', 'J'), ('k', 'K'), ('l', 'L'),
   ('m', 'M'), ('n', 'N'), ('o', 'O'), ('p', 'P'), ('q', 'Q'), ('r', 'R'),
   ('s', 'S'), ('t', 'T'), ('u', 'U'), ('v', 'V'), ('w', 'W'), ('x', 'X'),
   ('y', 'Y'), ('z', 'Z')]

/-- ASCII model of Python `str.upper` applied to one character. -/
def upChar (c : Char) : Char :=
  match lowerUpper.find? (fun p => p.1 == c) with
  | some p => p.2
  | none => c

/-- Model of `str.replace('_', '-')` applied to one character. -/
def replChar (c : Char) : Char :=
  if c = '_' then '-' else c

/-- Model of Python `str.strip()`: drop whitespace from both ends. -/
def pyStrip (l : List Char) : List Char :=
  (((l.dropWhile isPySpace).reverse.dropWhile isPySpace).reverse)

/-- The cleaning pipeline `serial.strip().upper().replace('_', '-')` shared by
`normalize_serial_number` and `normalize_part_number`. -/
def cleanChars (l : List Char) : List Char :=
  ((pyStrip l).map upChar).map replChar

/-- Leftmost-greedy match of the regex `(\d+[-_]?\d*)` used by
`re.search` in `normalize_serial_number`: scan to the first digit, take the
digit run, then an optional single separator followed by a further digit run.
(The later parts of the pattern may match empty, so the greedy-first parse
never backtracks.) -/
def searchNumberPart : List Char → Option (List Char)
  | [] => none
  | c :: rest =>
    if pyIsDigit c then
      let d1 := List.takeWhile pyIsDigit (c :: rest)
      let r1 := List.dropWhile pyIsDigit (c :: rest)
      match r1 with
      | s :: r2 => if isSep s then some (d1 ++ s :: List.takeWhile pyIsDigit r2) else some d1
      | [] => some d1
    else searchNumberPart rest

/-- Core of `normalize_serial_number(serial, prefix)` on character lists; `pfx`
is the prefix without the trailing hyphen. -/
def normSerialCore (pfx : List Char) (serial : List Char) : List Char :=
  if serial = [] then []
  else
    let clean := cleanChars serial
    if (pfx ++ ['-']).isPrefixOf clean then clean
    else
      match searchNumberPart clean with
      | some numberPart => pfx ++ '-' :: numberPart.map replChar
      | none => clean

/-- `normalize_serial_number` from `app/utils/normalizers.py`. -/
def normalize_serial_number (serial : String) (pfx : String) : String :=
  ⟨normSerialCore pfx.data serial.data⟩

/-- `normalize_board_serial`: serial normalization with the `VGN` prefix. -/
def normalize_board_serial (serial : String) : String :=
  normalize_serial_number serial "VGN"

/-- `normalize_unit_serial`: serial normalization with the `INF` prefix. -/
def normalize_unit_serial (serial : String) : String :=
  normalize_serial_number serial "INF"

/-- Match `[-_]?` followed by one character satisfying `pred`, returning the
remaining input positioned at that character.  Mirrors the only way the Python
regex engine can succeed here: if a separator is present it is consumed
greedily and the next character must satisfy `pred` (giving the separator back
cannot help, since the separator itself never satisfies `pred`). -/
def optSepThen (pred : Char → Bool) (l : List Char) : Option (List Char) :=
  match l with
  | [] => none
  | s :: r2 =>
    if isSep s then
      match r2 with
      | d :: _ => if pred d then some r2 else none
      | [] => none
    else if pred s then some l else none

/-- Anchored match of `([A-Z]+)[-_]?(\d+)[-_]?([A-Z]\d?)` (the `re.match` in
`normalize_part_number`), returning the three capture groups.  Trailing input
is ignored, exactly as with an unanchored-end `re.match`. -/
def matchPartGroups (l : List Char) : Option (List Char × List Char × List Char) :=
  let letters := l.takeWhile isUpperAZ
  if letters = [] then none
  else
    match optSepThen pyIsDigit (l.dropWhile isUpperAZ) with
    | none => none
    | some rd =>
      let digits := rd.takeWhile pyIsDigit
      match optSepThen isUpperAZ (rd.dropWhile pyIsDigit) with
      | none => none
      | some rs =>
        match rs with
        | a :: r5 =>
          match r5 with
          | d :: _ => if pyIsDigit d then some (letters, digits, [a, d]) else some (letters, digits, [a])
          | [] => some (letters, digits, [a])
        | [] => none

/-- Core of `normalize_part_number` on character lists. -/
def normPartCore (l : List Char) : List Char :=
  if l = [] then []
  else
    let clean := cleanChars l
    match matchPartGroups clean with
    | some (p, n, s) => p ++ '-' :: (n ++ '-' :: s)
    | none => clean

/-- `normalize_part_number` from `app/utils/normalizers.py`. -/
def normalize_part_number (part_number : String) : String :=
  ⟨normPartCore part_number.data⟩

/-- Core of `normalize_revision`: strip/upper, then `re.sub(r'^REV\s*', '', _)`
removes one leading `REV` together with the whitespace run that follows it. -/
def normRevisionCore (l : List Char) : List Char :=
  if l = [] then []
  else
    let clean := (pyStrip l).map upChar
    if ['R', 'E', 'V'].isPrefixOf clean then (clean.drop 3).dropWhile isPySpace
    else clean

/-- `normalize_revision` from `app/utils/normalizers.py`. -/
def normalize_revision (revision : String) : String :=
  ⟨normRevisionCore revision.data⟩

/-- Core of `normalize_job_number`: keep the digits if exactly five survive,
otherwise return the stripped original. -/
def normJobCore (l : List Char) : List Char :=
  if l = [] then []
  else
    let digits := l.filter pyIsDigit
    if digits.length = 5 then digits else pyStrip l

/-- `normalize_job_number` from `app/utils/normalizers.py`. -/
def normalize_job_number (job_number : String) : String :=
  ⟨normJobCore job_number.data⟩

/-- Bool substring test modelling the Python `in` operator on strings. -/
def containsSub (l sub : List Char) : Bool :=
  l.tails.any (fun t => sub.isPrefixOf t)

/-- Core of `normalize_flight_status`. -/
def normFlightCore (l : List Char) : List Char :=
  if l = [] then []
  else
    let clean := (pyStrip l).map upChar
    if containsSub clean "EDU".data || containsSub clean "NOT FOR FLIGHT".data then
      "EDU - NOT FOR FLIGHT".data
    else if containsSub clean "FLIGHT".data then "FLIGHT".data
    else clean

/-- `normalize_flight_status` from `app/utils/normalizers.py`. -/
def normalize_flight_status (status : String) : String :=
  ⟨normFlightCore status.data⟩

/-- Model of Python `', '.join(l)`. -/
def joinComma (l : List String) : String :=
  String.intercalate ", " l

/-- A single-quote character as a string (used by Python list `repr`). -/
def squoteStr : String :=
  ⟨[Char.ofNat 39]⟩

/-- Model of the Python `repr` of a list of plain strings, as interpolated into
the detail message of the job-number check.  (CPython iterates sets in an
unspecified hash order; this model fixes the deterministic order produced by
`compare_normalized_lists` below.) -/
def pyListRepr (l : List String) : String :=
  "[" ++ String.intercalate ", " (l.map (fun s => squoteStr ++ s ++ squoteStr)) ++ "]"

/-- Result record of `compare_normalized_lists`.  `match_percentage` is the
value of the Python float expression, modelled exactly in `Rat`. -/
structure ListComparison where
  matches_list : List String
  missing_in_second : List String
  missing_in_first : List String
  match_count : Nat
  total_unique_first : Nat
  total_unique_second : Nat
  match_percentage : Rat
deriving Repr, DecidableEq

/-- `compare_normalized_lists(list1, list2)` with its default
`normalizer_func=None` (the only way the validator ever calls it): both lists
are collapsed to sets, then intersected and differenced.  CPython materialises
`list(set)` in an unspecified hash order; the model uses deduplicated lists,
which agree with the Python sets elementwise.  The percentage is
`len(matches) / max(len(set1), len(set2)) * 100` when either set is non-empty
and `100` otherwise. -/
def compare_normalized_lists (list1 list2 : List String) : ListComparison :=
  let set1 := list1.dedup
  let set2 := list2.dedup
  let m := set1.filter (fun x => decide (x ∈ set2))
  let missing2 := set1.filter (fun x => decide (x ∉ set2))
  let missing1 := set2.filter (fun x => decide (x ∉ set1))
  { matches_list := m
    missing_in_second := missing2
    missing_in_first := missing1
    match_count := m.length
    total_unique_first := set1.length
    total_unique_second := set2.length
    match_percentage :=
      if set1 ≠ [] ∨ set2 ≠ [] then
        (m.length : Rat) / ((max set1.length set2.length : Nat) : Rat) * 100
      else 100 }

/-- `ValidationStatus` from `app/models/validation.py`. -/
inductive ValidationStatus
  | PASS
  | WARNING
  | FAIL
deriving Repr, DecidableEq

/-- `CheckType` from `app/models/validation.py`. -/
inductive CheckType
  | JOB_NUMBER
  | PART_NUMBER
  | REVISION
  | BOARD_SERIAL
  | UNIT_SERIAL
  | FLIGHT_STATUS
  | FILE_COMPLETENESS
deriving Repr, DecidableEq

/-- `OverallResult` from `app/models/session.py`. -/
inductive OverallResult
  | PASS
  | WARNING
  | FAIL
deriving Repr, DecidableEq

/-- One validation finding, the payload the validator builds for each
`ValidationResult` row (the session id, a constant tag per run, is omitted). -/
structure CheckResult where
  check_type : CheckType
  status : ValidationStatus
  description : String
  expected_value : Option String := none
  actual_value : Option String := none
  details : Option String := none
deriving Repr, DecidableEq

/-- The `seq_20_data` sub-dict of a traveler bag; a key read with
`.get(k, [])` that is absent is modelled by the empty list. -/
structure Seq20Data where
  board_serials : List String := []
  unit_serials : List String := []
deriving Repr, DecidableEq

/-- One document's extracted field bag as produced by
`extract_data_by_file_type`; list fields read with `.get(k, [])` default to
`[]` and `flight_status` read with `.get(k)` defaults to `none`. -/
structure DocData where
  job_numbers : List String := []
  part_numbers : List String := []
  board_serials : List String := []
  unit_serials : List String := []
  revisions : List String := []
  seq_20_data : Seq20Data := {}
  flight_status : Option String := none
deriving Repr, DecidableEq

/-- The aggregated session view built by `_extract_session_data`: at most one
traveler bag, at most one image bag, and a list of BOM bags. -/
structure SessionData where
  traveler_data : Option DocData := none
  image_data : Option DocData := none
  bom_data : List DocData := []
deriving Repr, DecidableEq

/-- The result `_validate_job_numbers` appends for one BOM bag, given the
already-normalized traveler job numbers. -/
def jobCheckForBom (traveler_jobs : List String) (bom : DocData) : CheckResult :=
  let bom_jobs := bom.job_numbers.map normalize_job_number
  let comparison := compare_normalized_lists traveler_jobs bom_jobs
  if comparison.matches_list ≠ [] then
    { check_type := .JOB_NUMBER
      status := .PASS
      description := "Job numbers match: " ++ joinComma comparison.matches_list
      expected_value := some (joinComma traveler_jobs)
      actual_value := some (joinComma bom_jobs) }
  else
    { check_type := .JOB_NUMBER
      status := .FAIL
      description := "Job number mismatch between Traveler and BOM"
      expected_value := some (joinComma traveler_jobs)
      actual_value := some (joinComma bom_jobs)
      details := some ("Traveler missing: " ++ pyListRepr comparison.missing_in_first ++
        ", BOM missing: " ++ pyListRepr comparison.missing_in_second) }

/-- `QCValidator._validate_job_numbers`. -/
def validate_job_numbers (d : SessionData) : List CheckResult :=
  if d.traveler_data = none ∨ d.bom_data = [] then
    [{ check_type := .JOB_NUMBER
       status := .FAIL
       description := "Missing required files for job number validation"
       details := some "Need both Traveler PDF and BOM Excel files" }]
  else
    let traveler := d.traveler_data.getD {}
    let traveler_jobs := traveler.job_numbers.map normalize_job_number
    d.bom_data.map (jobCheckForBom traveler_jobs)

/-- The result `_validate_part_numbers` appends for one BOM bag, given the
already-normalized traveler part numbers. -/
def partCheckForBom (traveler_parts : List String) (bom : DocData) : CheckResult :=
  let bom_parts := bom.part_numbers.map normalize_part_number
  let comparison := compare_normalized_lists traveler_parts bom_parts
  if comparison.missing_in_second ≠ [] then
    { check_type := .PART_NUMBER
      status := .FAIL
      description := "Part numbers found in Traveler but missing in BOM: " ++
        joinComma comparison.missing_in_second
      expected_value := some (joinComma traveler_parts)
      actual_value := some (joinComma bom_parts) }
  else if comparison.missing_in_first ≠ [] then
    { check_type := .PART_NUMBER
      status := .WARNING
      description := "Part numbers in BOM but not in Traveler: " ++
        joinComma comparison.missing_in_first
      expected_value := some (joinComma traveler_parts)
      actual_value := some (joinComma bom_parts) }
  else
    { check_type := .PART_NUMBER
      status := .PASS
      description := "Part numbers match: " ++ joinComma comparison.matches_list
      expected_value := some (joinComma traveler_parts)
      actual_value := some (joinComma bom_parts) }

/-- `QCValidator._validate_part_numbers`; with a missing traveler bag or no
BOM bag it returns the empty list (no finding at all). -/
def validate_part_numbers (d : SessionData) : List CheckResult :=
  if d.traveler_data = none ∨ d.bom_data = [] then []
  else
    let traveler := d.traveler_data.getD {}
    let traveler_parts := traveler.part_numbers.map normalize_part_number
    d.bom_data.map (partCheckForBom traveler_parts)

/-- The comprehension
`[b_rev for b_rev in bom_revisions if b_rev.startswith(t_rev[0]) if t_rev]`
from `_validate_revisions`.  The guard `if t_rev` is written AFTER the
condition that indexes `t_rev[0]`, and Python evaluates comprehension
conditions left to right: with `t_rev` empty and a non-empty `bom_revisions`,
`t_rev[0]` raises `IndexError` before the guard is reached.  The raise is
modelled in `Except`. -/
def matchingBomRevs (t : String) : List String → Except String (List String)
  | [] => .ok []
  | b :: rest =>
    if t = "" then .error "string index out of range"
    else do
      let tail ← matchingBomRevs t rest
      if (t.data.take 1).isPrefixOf b.data then
        if t ≠ "" then pure (b :: tail) else pure tail
      else pure tail

/-- The result `_validate_revisions` appends for one traveler revision `t`
against one BOM bag's normalized revisions. -/
def revisionCheckOne (t : String) (bom_revisions : List String) : Except String CheckResult := do
  let matching ← matchingBomRevs t bom_revisions
  if matching = [] then
    pure { check_type := .REVISION
           status := .FAIL
           description := "Revision " ++ t ++ " from Traveler not found in BOM"
           expected_value := some t
           actual_value := some (joinComma bom_revisions) }
  else if t ∈ matching then
    pure { check_type := .REVISION
           status := .PASS
           description := "Revision " ++ t ++ " matches across sources"
           expected_value := some t
           actual_value := some t }
  else
    pure { check_type := .REVISION
           status := .WARNING
           description := "Revision format difference: Traveler has " ++ t ++
             ", BOM has " ++ matching.headI
           expected_value := some t
           actual_value := some matching.headI }

/-- Left-to-right effectful map over a list in `Except`, mirroring a Python
`for` loop that appends one result per iteration and can raise mid-loop. -/
def exceptMap (f : α → Except String β) : List α → Except String (List β)
  | [] => .ok []
  | a :: rest => do
    let b ← f a
    let bs ← exceptMap f rest
    pure (b :: bs)

/-- `QCValidator._validate_revisions`; with a missing traveler bag or no BOM
bag it returns the empty list, otherwise it loops over every BOM bag and every
normalized traveler revision. -/
def validate_revisions (d : SessionData) : Except String (List CheckResult) :=
  if d.traveler_data = none ∨ d.bom_data = [] then .ok []
  else
    let traveler := d.traveler_data.getD {}
    let traveler_revisions := traveler.revisions.map normalize_revision
    (exceptMap
      (fun bom =>
        exceptMap (fun t => revisionCheckOne t (bom.revisions.map normalize_revision))
          traveler_revisions)
      d.bom_data).map List.flatten

/-- `QCValidator._validate_board_serials`. -/
def validate_board_serials (d : SessionData) : List CheckResult :=
  match d.traveler_data, d.image_data with
  | some traveler, some image =>
    let traveler_serials :=
      if traveler.seq_20_data.board_serials ≠ [] then traveler.seq_20_data.board_serials
      else traveler.board_serials
    let norm_traveler := traveler_serials.map normalize_board_serial
    let norm_image := image.board_serials.map normalize_board_serial
    let comparison := compare_normalized_lists norm_traveler norm_image
    if comparison.matches_list ≠ [] then
      [{ check_type := .BOARD_SERIAL
         status := .PASS
         description := "Board serials match: " ++ joinComma comparison.matches_list
         expected_value := some (joinComma norm_traveler)
         actual_value := some (joinComma norm_image)
         details := some "Normalized VGN- prefix handling applied" }]
    else
      [{ check_type := .BOARD_SERIAL
         status := .FAIL
         description := "Board serial mismatch between Traveler Seq 20 and Image"
         expected_value := some (joinComma norm_traveler)
         actual_value := some (joinComma norm_image) }]
  | _, _ =>
    [{ check_type := .BOARD_SERIAL
       status := .WARNING
       description := "Cannot validate board serials - missing Traveler or Image data" }]

/-- `QCValidator._validate_unit_serials`. -/
def validate_unit_serials (d : SessionData) : List CheckResult :=
  match d.traveler_data, d.image_data with
  | some traveler, some image =>
    let traveler_serials :=
      if traveler.seq_20_data.unit_serials ≠ [] then traveler.seq_20_data.unit_serials
      else traveler.unit_serials
    let norm_traveler := traveler_serials.map normalize_unit_serial
    let norm_image := image.unit_serials.map normalize_unit_serial
    let comparison := compare_normalized_lists norm_traveler norm_image
    if comparison.matches_list ≠ [] then
      [{ check_type := .UNIT_SERIAL
         status := .PASS
         description := "Unit serials match: " ++ joinComma comparison.matches_list
         expected_value := some (joinComma norm_traveler)
         actual_value := some (joinComma norm_image)
         details := some "Normalized INF- prefix handling applied" }]
    else
      [{ check_type := .UNIT_SERIAL
         status := .FAIL
         description := "Unit serial mismatch between Traveler Seq 20 and Image"
         expected_value := some (joinComma norm_traveler)
         actual_value := some (joinComma norm_image) }]
  | _, _ =>
    [{ check_type := .UNIT_SERIAL
       status := .WARNING
       description := "Cannot validate unit serials - missing Traveler or Image data" }]

/-- `QCValidator._validate_flight_status`; note that `if flight_status:` is
false both for a missing value and for the empty string. -/
def validate_flight_status (d : SessionData) : List CheckResult :=
  match d.image_data with
  | none =>
    [{ check_type := .FLIGHT_STATUS
       status := .WARNING
       description := "Cannot validate flight status - no image data available" }]
  | some image =>
    match image.flight_status with
    | some fs =>
      if fs ≠ "" then
        [{ check_type := .FLIGHT_STATUS
           status := .PASS
           description := "Flight status confirmed: " ++ normalize_flight_status fs
           actual_value := some (normalize_flight_status fs) }]
      else
        [{ check_type := .FLIGHT_STATUS
           status := .WARNING
           description := "Flight status marking not clearly detected on image" }]
    | none =>
      [{ check_type := .FLIGHT_STATUS
         status := .WARNING
         description := "Flight status marking not clearly detected on image" }]

/-- `QCValidator._validate_file_completeness`. -/
def validate_file_completeness (d : SessionData) : List CheckResult :=
  let types_present :=
    (if d.traveler_data ≠ none then ["Traveler PDF"] else []) ++
    (if d.image_data ≠ none then ["Product Image"] else []) ++
    (if d.bom_data.length > 0 then ["BOM Excel"] else [])
  let missing_types :=
    (if d.traveler_data = none then ["Traveler PDF"] else []) ++
    (if d.image_data = none then ["Product Image"] else []) ++
    (if ¬ d.bom_data.length > 0 then ["BOM Excel"] else [])
  if missing_types ≠ [] then
    [{ check_type := .FILE_COMPLETENESS
       status := .WARNING
       description := "Missing file types: " ++ joinComma missing_types
       details := some ("Present: " ++ joinComma types_present) }]
  else
    [{ check_type := .FILE_COMPLETENESS
       status := .PASS
       description := "All required file types present and processed successfully" }]

/-- `QCValidator._determine_overall_result`: Fail beats Warning beats Pass. -/
def determine_overall_result (validation_results : List CheckResult) : OverallResult :=
  if validation_results.any (fun r => decide (r.status = ValidationStatus.FAIL)) then .FAIL
  else if validation_results.any (fun r => decide (r.status = ValidationStatus.WARNING)) then .WARNING
  else .PASS

/-! ### Character-level lemmas -/

theorem upChar_of_none {c : Char} (h : lowerUpper.find? (fun p => p.1 == c) = none) :
    upChar c = c := by
  unfold upChar
  rw [h]

theorem upChar_fst {c : Char} {p : Char × Char}
    (h : lowerUpper.find? (fun q => q.1 == c) = some p) : p.1 = c := by
  have := List.find?_some h
  simpa using this

theorem upChar_upChar (c : Char) : upChar (upChar c) = upChar c := by
  cases hf : lowerUpper.find? (fun p => p.1 == c) with
  | none => rw [upChar_of_none hf, upChar_of_none hf]
  | some p =>
    have hp : p ∈ lowerUpper := List.mem_of_find?_eq_some hf
    have hc : p.1 = c := upChar_fst hf
    subst hc
    fin_cases hp <;> rfl

theorem isPySpace_upChar (c : Char) : isPySpace (upChar c) = isPySpace c := by
  cases hf : lowerUpper.find? (fun p => p.1 == c) with
  | none => rw [upChar_of_none hf]
  | some p =>
    have hp : p ∈ lowerUpper := List.mem_of_find?_eq_some hf
    have hc : p.1 = c := upChar_fst hf
    subst hc
    fin_cases hp <;> rfl

theorem replChar_replChar (c : Char) : replChar (replChar c) = replChar c := by
  by_cases h : c = '_'
  · subst h; rfl
  · simp [replChar, h]

theorem isPySpace_replChar (c : Char) : isPySpace (replChar c) = isPySpace c := by
  by_cases h : c = '_'
  · subst h; rfl
  · simp [replChar, h]

theorem replChar_upChar_comm (c : Char) : replChar (upChar c) = upChar (replChar c) := by
  cases hf : lowerUpper.find? (fun p => p.1 == c) with
  | none =>
    by_cases h : c = '_'
    · subst h; rfl
    · have hr : replChar c = c := by simp [replChar, h]
      rw [upChar_of_none hf, hr, upChar_of_none hf]
  | some p =>
    have hp : p ∈ lowerUpper := List.mem_of_find?_eq_some hf
    have hc : p.1 = c := upChar_fst hf
    subst hc
    fin_cases hp <;> rfl

theorem upChar_of_isUpperAZ {c : Char} (h : isUpperAZ c = true) : upChar c = c := by
  cases hf : lowerUpper.find? (fun p => p.1 == c) with
  | none => exact upChar_of_none hf
  | some p =>
    have hp : p ∈ lowerUpper := List.mem_of_find?_eq_some hf
    have hc : p.1 = c := upChar_fst hf
    subst hc
    fin_cases hp <;> exact absurd h (by decide)

theorem upChar_of_pyIsDigit {c : Char} (h : pyIsDigit c = true) : upChar c = c := by
  cases hf : lowerUpper.find? (fun p => p.1 == c) with
  | none => exact upChar_of_none hf
  | some p =>
    have hp : p ∈ lowerUpper := List.mem_of_find?_eq_some hf
    have hc : p.1 = c := upChar_fst hf
    subst hc
    fin_cases hp <;> exact absurd h (by decide)

theorem isPySpace_eq_false_of_gt {c : Char} (h : ' ' < c) : isPySpace c = false := by
  cases hs : isPySpace c with
  | false => rfl
  | true =>
    exfalso
    simp only [isPySpace, Bool.or_eq_true, beq_iff_eq] at hs
    rcases hs with ((((rfl | rfl) | rfl) | rfl) | rfl) | rfl <;> revert h <;> decide

theorem pyIsDigit_bounds {c : Char} (h : pyIsDigit c = true) : '0' ≤ c ∧ c ≤ '9' := by
  simpa [pyIsDigit] using h

theorem isUpperAZ_bounds {c : Char} (h : isUpperAZ c = true) : 'A' ≤ c ∧ c ≤ 'Z' := by
  simpa [isUpperAZ] using h

theorem isPySpace_of_pyIsDigit {c : Char} (h : pyIsDigit c = true) : isPySpace c = false :=
  isPySpace_eq_false_of_gt (lt_of_lt_of_le (by decide) (pyIsDigit_bounds h).1)

theorem isPySpace_of_isUpperAZ {c : Char} (h : isUpperAZ c = true) : isPySpace c = false :=
  isPySpace_eq_false_of_gt (lt_of_lt_of_le (by decide) (isUpperAZ_bounds h).1)

theorem replChar_of_pyIsDigit {c : Char} (h : pyIsDigit c = true) : replChar c = c := by
  have : c ≠ '_' := by
    intro hc
    subst hc
    exact absurd h (by decide)
  simp [replChar, this]

theorem replChar_of_isUpperAZ {c : Char} (h : isUpperAZ c = true) : replChar c = c := by
  have : c ≠ '_' := by
    intro hc
    subst hc
    exact absurd h (by decide)
  simp [replChar, this]

/-! ### Strip and clean pipeline lemmas -/

theorem dropWhile_dropWhile (p : Char → Bool) (l : List Char) :
    (l.dropWhile p).dropWhile p = l.dropWhile p := by
  induction l with
  | nil => rfl
  | cons c t ih =>
    by_cases h : p c
    · simp [List.dropWhile_cons, h, ih]
    · simp [List.dropWhile_cons, h]

theorem dropWhile_eq_self_of_prefix {p : Char → Bool} {x y : List Char}
    (hx : x.dropWhile p = x) (hxy : y <+: x) : y.dropWhile p = y := by
  cases y with
  | nil => rfl
  | cons c t =>
    cases x with
    | nil => simp [List.prefix_nil] at hxy
    | cons b s =>
      obtain ⟨r, hr⟩ := hxy
      have hcb : c = b := by
        have := congrArg (fun l => List.head? l) hr
        simpa using this
      subst hcb
      have hpc : p c = false := by
        by_contra hpc
        have hpc2 : p c = true := by
          cases hpc3 : p c with
          | true => rfl
          | false => exact absurd hpc3 hpc
        rw [List.dropWhile_cons_of_pos hpc2] at hx
        have := congrArg List.length hx
        have hle := (List.dropWhile_suffix (l := s) p).length_le
        simp at this
        omega
      simp [List.dropWhile_cons, hpc]

theorem pyStrip_front (l : List Char) : pyStrip l <+: l.dropWhile isPySpace := by
  unfold pyStrip
  have hs : (l.dropWhile isPySpace).reverse.dropWhile isPySpace <:+
      (l.dropWhile isPySpace).reverse := List.dropWhile_suffix _
  have h2 := List.reverse_prefix.mpr hs
  simpa using h2

theorem dropWhile_pyStrip (l : List Char) : (pyStrip l).dropWhile isPySpace = pyStrip l :=
  dropWhile_eq_self_of_prefix (dropWhile_dropWhile _ _) (pyStrip_front l)

theorem pyStrip_pyStrip (l : List Char) : pyStrip (pyStrip l) = pyStrip l := by
  conv_lhs => rw [pyStrip, dropWhile_pyStrip l]
  rw [pyStrip]
  rw [List.reverse_reverse, dropWhile_dropWhile]

theorem dropWhile_map_of_pres {g : Char → Char} (hg : ∀ c, isPySpace (g c) = isPySpace c)
    (l : List Char) : (l.map g).dropWhile isPySpace = (l.dropWhile isPySpace).map g := by
  rw [List.dropWhile_map]
  congr 1
  have : (isPySpace ∘ g) = isPySpace := funext hg
  rw [this]

theorem pyStrip_map_of_pres {g : Char → Char} (hg : ∀ c, isPySpace (g c) = isPySpace c)
    (l : List Char) : pyStrip (l.map g) = (pyStrip l).map g := by
  unfold pyStrip
  rw [dropWhile_map_of_pres hg, ← List.map_reverse, dropWhile_map_of_pres hg, List.map_reverse]

theorem cleanChars_idem (l : List Char) : cleanChars (cleanChars l) = cleanChars l := by
  unfold cleanChars
  rw [pyStrip_map_of_pres isPySpace_replChar, pyStrip_map_of_pres isPySpace_upChar,
    pyStrip_pyStrip]
  simp only [List.map_map]
  apply List.map_congr_left
  intro c _
  simp only [Function.comp]
  rw [replChar_upChar_comm (replChar (upChar c)), replChar_replChar, ← replChar_upChar_comm,
    upChar_upChar]

/-- Characters that pass unchanged through the whole cleaning pipeline. -/
def cleanFixed (c : Char) : Prop :=
  isPySpace c = false ∧ upChar c = c ∧ replChar c = c

theorem dropWhile_eq_self_of_all {p : Char → Bool} {l : List Char}
    (h : ∀ c ∈ l, p c = false) : l.dropWhile p = l := by
  cases l with
  | nil => rfl
  | cons c t => simp [List.dropWhile_cons, h c (by simp)]

theorem pyStrip_eq_self_of_all {l : List Char} (h : ∀ c ∈ l, isPySpace c = false) :
    pyStrip l = l := by
  unfold pyStrip
  rw [dropWhile_eq_self_of_all h, dropWhile_eq_self_of_all (by simpa using h),
    List.reverse_reverse]

theorem cleanChars_eq_self_of_fixed {l : List Char} (h : ∀ c ∈ l, cleanFixed c) :
    cleanChars l = l := by
  unfold cleanChars
  rw [pyStrip_eq_self_of_all (fun c hc => (h c hc).1)]
  have h1 : l.map upChar = l := by
    have : l.map upChar = l.map id := List.map_congr_left (fun c hc => (h c hc).2.1)
    simpa using this
  rw [h1]
  have : l.map replChar = l.map id := List.map_congr_left (fun c hc => (h c hc).2.2)
  simpa using this

/-! ### Serial-number normalization lemmas -/

theorem searchNumberPart_chars {l n : List Char} (h : searchNumberPart l = some n) :
    ∀ c ∈ n, pyIsDigit c = true ∨ isSep c = true := by
  induction l with
  | nil => simp [searchNumberPart] at h
  | cons c t ih =>
    rw [searchNumberPart] at h
    by_cases hd : pyIsDigit c
    · rw [if_pos hd] at h
      cases hr : List.dropWhile pyIsDigit (c :: t) with
      | nil =>
        rw [hr] at h
        simp only [Option.some.injEq] at h
        subst h
        intro x hx
        exact Or.inl (List.mem_takeWhile_imp hx)
      | cons s r2 =>
        rw [hr] at h
        by_cases hsep : isSep s
        · simp only [if_pos hsep, Option.some.injEq] at h
          subst h
          intro x hx
          rcases List.mem_append.mp hx with hx | hx
          · exact Or.inl (List.mem_takeWhile_imp hx)
          · rcases List.mem_cons.mp hx with rfl | hx
            · exact Or.inr hsep
            · exact Or.inl (List.mem_takeWhile_imp hx)
        · simp only [if_neg hsep, Option.some.injEq] at h
          subst h
          intro x hx
          exact Or.inl (List.mem_takeWhile_imp hx)
    · rw [if_neg hd] at h
      exact ih h

theorem normSerialCore_nil (pfx : List Char) : normSerialCore pfx [] = [] := rfl

theorem normSerialCore_of_ne {pfx l : List Char} (h0 : l ≠ []) :
    normSerialCore pfx l =
      (if (pfx ++ ['-']).isPrefixOf (cleanChars l) then cleanChars l
       else
         match searchNumberPart (cleanChars l) with
         | some numberPart => pfx ++ '-' :: numberPart.map replChar
         | none => cleanChars l) := by
  rw [normSerialCore, if_neg h0]

theorem normSerialCore_idem {pfx : List Char} (hp : ∀ c ∈ pfx, cleanFixed c)
    (l : List Char) : normSerialCore pfx (normSerialCore pfx l) = normSerialCore pfx l := by
  by_cases h0 : l = []
  · subst h0; rfl
  rw [normSerialCore_of_ne h0]
  by_cases hpre : (pfx ++ ['-']).isPrefixOf (cleanChars l)
  · rw [if_pos hpre]
    have hne : cleanChars l ≠ [] := by
      obtain ⟨r, hr⟩ := List.isPrefixOf_iff_prefix.mp hpre
      intro hnil
      rw [hnil] at hr
      simp at hr
    rw [normSerialCore_of_ne hne, cleanChars_idem, if_pos hpre]
  · rw [if_neg hpre]
    cases hs : searchNumberPart (cleanChars l) with
    | none =>
      by_cases hcl : cleanChars l = []
      · rw [hcl]; rfl
      · rw [normSerialCore_of_ne hcl, cleanChars_idem, if_neg hpre, hs]
    | some n =>
      have hout_ne : pfx ++ '-' :: n.map replChar ≠ [] := by simp
      have hfix : ∀ c ∈ pfx ++ '-' :: n.map replChar, cleanFixed c := by
        intro c hc
        rcases List.mem_append.mp hc with hc | hc
        · exact hp c hc
        · rcases List.mem_cons.mp hc with rfl | hc
          · exact ⟨by decide, by decide, by decide⟩
          · obtain ⟨c0, hc0, rfl⟩ := List.mem_map.mp hc
            rcases searchNumberPart_chars hs c0 hc0 with hd | hsep
            · have hr := replChar_of_pyIsDigit hd
              rw [hr]
              exact ⟨isPySpace_of_pyIsDigit hd, upChar_of_pyIsDigit hd, hr⟩
            · have hr : replChar c0 = '-' := by
                simp only [isSep, Bool.or_eq_true, beq_iff_eq] at hsep
                rcases hsep with rfl | rfl <;> rfl
              rw [hr]
              exact ⟨by decide, by decide, by decide⟩
      rw [normSerialCore_of_ne hout_ne, cleanChars_eq_self_of_fixed hfix]
      have hpre2 : (pfx ++ ['-']).isPrefixOf (pfx ++ '-' :: n.map replChar) := by
        rw [List.isPrefixOf_iff_prefix, List.append_cons pfx '-' (n.map replChar)]
        exact List.prefix_append _ _
      rw [if_pos hpre2]

/-! ### Part-number normalization lemmas -/

theorem optSepThen_some {pred : Char → Bool} {l r : List Char}
    (h : optSepThen pred l = some r) : ∃ d rest, r = d :: rest ∧ pred d = true := by
  cases l with
  | nil => simp [optSepThen] at h
  | cons s r2 =>
    simp only [optSepThen] at h
    by_cases hsep : isSep s
    · rw [if_pos hsep] at h
      cases r2 with
      | nil => simp at h
      | cons d rest =>
        by_cases hd : pred d
        · simp only [if_pos hd, Option.some.injEq] at h
          exact ⟨d, rest, h.symm, hd⟩
        · simp [hd] at h
    · rw [if_neg hsep] at h
      by_cases hs : pred s
      · simp only [if_pos hs, Option.some.injEq] at h
        exact ⟨s, r2, h.symm, hs⟩
      · simp [hs] at h

theorem optSepThen_sep_cons {pred : Char → Bool} {d : Char} {r : List Char}
    (hd : pred d = true) : optSepThen pred ('-' :: d :: r) = some (d :: r) := by
  simp [optSepThen, isSep, hd]

theorem takeWhile_all_stop {p : Char → Bool} {l r : List Char} {b : Char}
    (hl : ∀ c ∈ l, p c = true) (hb : p b = false) :
    (l ++ b :: r).takeWhile p = l := by
  rw [List.takeWhile_append_of_pos hl, List.takeWhile_cons_of_neg (by simp [hb]),
    List.append_nil]

theorem dropWhile_all_stop {p : Char → Bool} {l r : List Char} {b : Char}
    (hl : ∀ c ∈ l, p c = true) (hb : p b = false) :
    (l ++ b :: r).dropWhile p = b :: r := by
  rw [List.dropWhile_append_of_pos hl, List.dropWhile_cons_of_neg (by simp [hb])]

theorem matchPartGroups_inv {l p n s : List Char}
    (h : matchPartGroups l = some (p, n, s)) :
    p ≠ [] ∧ (∀ c ∈ p, isUpperAZ c = true) ∧ n ≠ [] ∧ (∀ c ∈ n, pyIsDigit c = true) ∧
      ((∃ a, s = [a] ∧ isUpperAZ a = true) ∨
        (∃ a d, s = [a, d] ∧ isUpperAZ a = true ∧ pyIsDigit d = true)) := by
  unfold matchPartGroups at h
  by_cases hl : l.takeWhile isUpperAZ = []
  · simp [hl] at h
  · simp only [if_neg hl] at h
    cases h1 : optSepThen pyIsDigit (l.dropWhile isUpperAZ) with
    | none => simp [h1] at h
    | some rd =>
      simp only [h1] at h
      obtain ⟨d1, rest1, rfl, hd1⟩ := optSepThen_some h1
      cases h2 : optSepThen isUpperAZ ((d1 :: rest1).dropWhile pyIsDigit) with
      | none => simp [h2] at h
      | some rs =>
        simp only [h2] at h
        obtain ⟨a, r5, rfl, ha⟩ := optSepThen_some h2
        have hdig : (d1 :: rest1).takeWhile pyIsDigit =
            d1 :: rest1.takeWhile pyIsDigit := List.takeWhile_cons_of_pos hd1
        cases r5 with
        | nil =>
          simp only [Option.some.injEq, Prod.mk.injEq] at h
          obtain ⟨rfl, rfl, rfl⟩ := h
          refine ⟨hl, fun c hc => List.mem_takeWhile_imp hc, ?_, ?_, ?_⟩
          · rw [hdig]; simp
          · exact fun c hc => List.mem_takeWhile_imp hc
          · exact Or.inl ⟨a, rfl, ha⟩
        | cons d2 r6 =>
          by_cases hd2 : pyIsDigit d2
          · simp only [if_pos hd2, Option.some.injEq, Prod.mk.injEq] at h
            obtain ⟨rfl, rfl, rfl⟩ := h
            refine ⟨hl, fun c hc => List.mem_takeWhile_imp hc, ?_, ?_, ?_⟩
            · rw [hdig]; simp
            · exact fun c hc => List.mem_takeWhile_imp hc
            · exact Or.inr ⟨a, d2, rfl, ha, hd2⟩
          · simp only [if_neg hd2, Option.some.injEq, Prod.mk.injEq] at h
            obtain ⟨rfl, rfl, rfl⟩ := h
            refine ⟨hl, fun c hc => List.mem_takeWhile_imp hc, ?_, ?_, ?_⟩
            · rw [hdig]; simp
            · exact fun c hc => List.mem_takeWhile_imp hc
            · exact Or.inl ⟨a, rfl, ha⟩

theorem matchPartGroups_reconstruct {p n s : List Char}
    (hp : ∀ c ∈ p, isUpperAZ c = true) (hp_ne : p ≠ [])
    (hn : ∀ c ∈ n, pyIsDigit c = true) (hn_ne : n ≠ [])
    (hs : (∃ a, s = [a] ∧ isUpperAZ a = true) ∨
      (∃ a d, s = [a, d] ∧ isUpperAZ a = true ∧ pyIsDigit d = true)) :
    matchPartGroups (p ++ '-' :: (n ++ '-' :: s)) = some (p, n, s) := by
  obtain ⟨hn0, tn, rfl⟩ : ∃ hn0 tn, n = hn0 :: tn := by
    cases n with
    | nil => exact absurd rfl hn_ne
    | cons hn0 tn => exact ⟨hn0, tn, rfl⟩
  have hA : (p ++ '-' :: (hn0 :: tn ++ '-' :: s)).takeWhile isUpperAZ = p :=
    takeWhile_all_stop hp (by decide)
  have hB : (p ++ '-' :: (hn0 :: tn ++ '-' :: s)).dropWhile isUpperAZ =
      '-' :: (hn0 :: tn ++ '-' :: s) := dropWhile_all_stop hp (by decide)
  have hC : optSepThen pyIsDigit ('-' :: (hn0 :: tn ++ '-' :: s)) =
      some (hn0 :: tn ++ '-' :: s) := by
    have := optSepThen_sep_cons (r := tn ++ '-' :: s) (hn (hn0) (by simp))
    simpa using this
  have hD : (hn0 :: tn ++ '-' :: s).takeWhile pyIsDigit = hn0 :: tn := by
    have := takeWhile_all_stop (l := hn0 :: tn) (r := s) (b := '-') hn (by decide)
    simpa using this
  have hE : (hn0 :: tn ++ '-' :: s).dropWhile pyIsDigit = '-' :: s := by
    have := dropWhile_all_stop (l := hn0 :: tn) (r := s) (b := '-') hn (by decide)
    simpa using this
  rcases hs with ⟨a, rfl, ha⟩ | ⟨a, d, rfl, ha, hd⟩
  · have hF : optSepThen isUpperAZ ('-' :: [a]) = some [a] := optSepThen_sep_cons ha
    unfold matchPartGroups
    simp only [hA, if_neg hp_ne, hB, hC, hD, hE, hF]
  · have hF : optSepThen isUpperAZ ('-' :: [a, d]) = some [a, d] := optSepThen_sep_cons ha
    unfold matchPartGroups
    simp only [hA, if_neg hp_ne, hB, hC, hD, hE, hF, if_pos hd]

theorem normPartCore_of_ne {l : List Char} (h0 : l ≠ []) :
    normPartCore l =
      (match matchPartGroups (cleanChars l) with
       | some (p, n, s) => p ++ '-' :: (n ++ '-' :: s)
       | none => cleanChars l) := by
  rw [normPartCore, if_neg h0]

theorem normPartCore_idem (l : List Char) : normPartCore (normPartCore l) = normPartCore l := by
  by_cases h0 : l = []
  · subst h0; rfl
  rw [normPartCore_of_ne h0]
  cases hm : matchPartGroups (cleanChars l) with
  | none =>
    by_cases hcl : cleanChars l = []
    · rw [hcl]; rfl
    · rw [normPartCore_of_ne hcl, cleanChars_idem, hm]
  | some pns =>
    obtain ⟨p, n, s⟩ := pns
    obtain ⟨hp_ne, hp, hn_ne, hn, hs⟩ := matchPartGroups_inv hm
    have upperFixed : ∀ c : Char, isUpperAZ c = true → cleanFixed c := fun c hc =>
      ⟨isPySpace_of_isUpperAZ hc, upChar_of_isUpperAZ hc, replChar_of_isUpperAZ hc⟩
    have digitFixed : ∀ c : Char, pyIsDigit c = true → cleanFixed c := fun c hc =>
      ⟨isPySpace_of_pyIsDigit hc, upChar_of_pyIsDigit hc, replChar_of_pyIsDigit hc⟩
    have hout_ne : p ++ '-' :: (n ++ '-' :: s) ≠ [] := by simp
    have hfix : ∀ c ∈ p ++ '-' :: (n ++ '-' :: s), cleanFixed c := by
      intro c hc
      rcases List.mem_append.mp hc with hc | hc
      · exact upperFixed c (hp c hc)
      rcases List.mem_cons.mp hc with rfl | hc
      · exact ⟨by decide, by decide, by decide⟩
      rcases List.mem_append.mp hc with hc | hc
      · exact digitFixed c (hn c hc)
      rcases List.mem_cons.mp hc with rfl | hc
      · exact ⟨by decide, by decide, by decide⟩
      rcases hs with ⟨a, rfl, ha⟩ | ⟨a, d, rfl, ha, hd⟩
      · rcases List.mem_singleton.mp hc with rfl
        exact upperFixed c ha
      · rcases List.mem_cons.mp hc with rfl | hc
        · exact upperFixed c ha
        · rcases List.mem_singleton.mp hc with rfl
          exact digitFixed c hd
    rw [normPartCore_of_ne hout_ne, cleanChars_eq_self_of_fixed hfix,
      matchPartGroups_reconstruct hp hp_ne hn hn_ne hs]

/-! ### Job-number and flight-status normalization lemmas -/

theorem pyIsDigit_of_isPySpace {c : Char} (h : isPySpace c = true) : pyIsDigit c = false := by
  simp only [isPySpace, Bool.or_eq_true, beq_iff_eq] at h
  rcases h with ((((rfl | rfl) | rfl) | rfl) | rfl) | rfl <;> rfl

theorem filter_dropWhile_pyIsDigit (l : List Char) :
    (l.dropWhile isPySpace).filter pyIsDigit = l.filter pyIsDigit := by
  induction l with
  | nil => rfl
  | cons c t ih =>
    by_cases h : isPySpace c
    · rw [List.dropWhile_cons_of_pos h, ih,
        List.filter_cons_of_neg (by simp [pyIsDigit_of_isPySpace h])]
    · rw [List.dropWhile_cons_of_neg h]

theorem filter_pyStrip (l : List Char) :
    (pyStrip l).filter pyIsDigit = l.filter pyIsDigit := by
  unfold pyStrip
  rw [List.filter_reverse, filter_dropWhile_pyIsDigit, List.filter_reverse,
    List.reverse_reverse, filter_dropWhile_pyIsDigit]

theorem normJobCore_of_ne {l : List Char} (h0 : l ≠ []) :
    normJobCore l =
      if (l.filter pyIsDigit).length = 5 then l.filter pyIsDigit else pyStrip l := by
  rw [normJobCore, if_neg h0]

theorem normJobCore_idem (l : List Char) : normJobCore (normJobCore l) = normJobCore l := by
  by_cases h0 : l = []
  · subst h0; rfl
  rw [normJobCore_of_ne h0]
  by_cases hlen : (l.filter pyIsDigit).length = 5
  · rw [if_pos hlen]
    have hne : l.filter pyIsDigit ≠ [] := by
      intro h
      rw [h] at hlen
      simp at hlen
    have hself : (l.filter pyIsDigit).filter pyIsDigit = l.filter pyIsDigit :=
      List.filter_eq_self.mpr (fun c hc => (List.mem_filter.mp hc).2)
    rw [normJobCore_of_ne hne, hself, if_pos hlen]
  · rw [if_neg hlen]
    by_cases hst : pyStrip l = []
    · rw [hst]; rfl
    · rw [normJobCore_of_ne hst, filter_pyStrip, if_neg hlen, pyStrip_pyStrip]

theorem upStrip_idem (l : List Char) :
    (pyStrip ((pyStrip l).map upChar)).map upChar = (pyStrip l).map upChar := by
  rw [pyStrip_map_of_pres isPySpace_upChar, pyStrip_pyStrip, List.map_map]
  exact List.map_congr_left (fun c _ => upChar_upChar c)

theorem normFlightCore_of_ne {l : List Char} (h0 : l ≠ []) :
    normFlightCore l =
      (if containsSub ((pyStrip l).map upChar) "EDU".data ||
          containsSub ((pyStrip l).map upChar) "NOT FOR FLIGHT".data then
        "EDU - NOT FOR FLIGHT".data
       else if containsSub ((pyStrip l).map upChar) "FLIGHT".data then "FLIGHT".data
       else (pyStrip l).map upChar) := by
  rw [normFlightCore, if_neg h0]

theorem normFlightCore_idem (l : List Char) :
    normFlightCore (normFlightCore l) = normFlightCore l := by
  by_cases h0 : l = []
  · subst h0; rfl
  rw [normFlightCore_of_ne h0]
  by_cases h1 : containsSub ((pyStrip l).map upChar) "EDU".data ||
      containsSub ((pyStrip l).map upChar) "NOT FOR FLIGHT".data
  · rw [if_pos h1]; decide
  · rw [if_neg h1]
    by_cases h2 : containsSub ((pyStrip l).map upChar) "FLIGHT".data
    · rw [if_pos h2]; decide
    · rw [if_neg h2]
      by_cases hu : (pyStrip l).map upChar = []
      · rw [hu]; rfl
      · rw [normFlightCore_of_ne hu, upStrip_idem, if_neg h1, if_neg h2]

/-! ### Claim theorems -/

/-- C1: the claim asserts every check executor returns normally on any
aggregated session data, in particular the revision executor when a normalized
traveler revision is empty and the BOM revision list is non-empty.  The code
violates this: with traveler revision `"REV"` (which normalizes to the empty
string) and a BOM bag carrying revision `"A"`, the comprehension in
`_validate_revisions` evaluates `t_rev[0]` before its `if t_rev` guard and
raises `IndexError: string index out of range`; no result list is produced. -/
theorem c1_revision_executor_raises :
    validate_revisions
      { traveler_data := some { revisions := ["REV"] }
        image_data := none
        bom_data := [{ revisions := ["A"] }] } =
      Except.error "string index out of range" := by
  rfl

/-- C2 counterexample: `normalize_revision` is not idempotent.  On input
`"REVREVA"` one application strips a single leading `REV` and yields
`"REVA"`, while a second application strips the newly exposed `REV` and
yields `"A"`. -/
theorem c2_counterexample :
    normalize_revision (normalize_revision "REVREVA") ≠ normalize_revision "REVREVA" := by
  decide

/-- C2 amended: every normalizer except `normalize_revision` is idempotent;
`normalize_revision` fails idempotence exactly when removing one leading
`REV` token exposes another (see the counterexample). -/
theorem c2_five_normalizers_idempotent (s : String) :
    normalize_board_serial (normalize_board_serial s) = normalize_board_serial s ∧
    normalize_unit_serial (normalize_unit_serial s) = normalize_unit_serial s ∧
    normalize_part_number (normalize_part_number s) = normalize_part_number s ∧
    normalize_job_number (normalize_job_number s) = normalize_job_number s ∧
    normalize_flight_status (normalize_flight_status s) = normalize_flight_status s := by
  have hv : ∀ c ∈ "VGN".data, cleanFixed c := by
    intro c hc
    have h3 : "VGN".data = ['V', 'G', 'N'] := rfl
    rw [h3] at hc
    fin_cases hc <;> exact ⟨by decide, by decide, by decide⟩
  have hi : ∀ c ∈ "INF".data, cleanFixed c := by
    intro c hc
    have h3 : "INF".data = ['I', 'N', 'F'] := rfl
    rw [h3] at hc
    fin_cases hc <;> exact ⟨by decide, by decide, by decide⟩
  refine ⟨?_, ?_, ?_, ?_, ?_⟩
  · exact congrArg String.mk (normSerialCore_idem hv s.data)
  · exact congrArg String.mk (normSerialCore_idem hi s.data)
  · exact congrArg String.mk (normPartCore_idem s.data)
  · exact congrArg String.mk (normJobCore_idem s.data)
  · exact congrArg String.mk (normFlightCore_idem s.data)

/-! ### Verdict aggregator lemmas -/

theorem any_perm_eq {L1 L2 : List CheckResult} (h : L1.Perm L2) (p : CheckResult → Bool) :
    L1.any p = L2.any p := by
  rw [Bool.eq_iff_iff]
  simp only [List.any_eq_true]
  constructor
  · rintro ⟨x, hx, hp⟩
    exact ⟨x, h.mem_iff.mp hx, hp⟩
  · rintro ⟨x, hx, hp⟩
    exact ⟨x, h.mem_iff.mpr hx, hp⟩

theorem overall_fail_iff (L : List CheckResult) :
    determine_overall_result L = OverallResult.FAIL ↔
      ∃ r ∈ L, r.status = ValidationStatus.FAIL := by
  unfold determine_overall_result
  by_cases h : L.any (fun r => decide (r.status = ValidationStatus.FAIL))
  · rw [if_pos h]
    simp only [List.any_eq_true, decide_eq_true_eq] at h
    exact ⟨fun _ => by simpa using h, fun _ => rfl⟩
  · rw [if_neg h]
    simp only [List.any_eq_true, decide_eq_true_eq, not_exists, not_and] at h
    by_cases h2 : L.any (fun r => decide (r.status = ValidationStatus.WARNING))
    · rw [if_pos h2]
      constructor
      · intro hc
        exact absurd hc (by simp)
      · rintro ⟨r, hr, hs⟩
        exact absurd hs (h r hr)
    · rw [if_neg h2]
      constructor
      · intro hc
        exact absurd hc (by simp)
      · rintro ⟨r, hr, hs⟩
        exact absurd hs (h r hr)

theorem overall_warning_iff (L : List CheckResult) :
    determine_overall_result L = OverallResult.WARNING ↔
      (¬ ∃ r ∈ L, r.status = ValidationStatus.FAIL) ∧
        ∃ r ∈ L, r.status = ValidationStatus.WARNING := by
  unfold determine_overall_result
  by_cases h : L.any (fun r => decide (r.status = ValidationStatus.FAIL))
  · rw [if_pos h]
    simp only [List.any_eq_true, decide_eq_true_eq] at h
    constructor
    · intro hc
      exact absurd hc (by simp)
    · rintro ⟨hnf, _⟩
      exact absurd (by simpa using h) hnf
  · rw [if_neg h]
    simp only [List.any_eq_true, decide_eq_true_eq, not_exists, not_and] at h
    by_cases h2 : L.any (fun r => decide (r.status = ValidationStatus.WARNING))
    · rw [if_pos h2]
      simp only [List.any_eq_true, decide_eq_true_eq] at h2
      constructor
      · intro _
        refine ⟨?_, by simpa using h2⟩
        rintro ⟨r, hr, hs⟩
        exact absurd hs (h r hr)
      · intro _
        rfl
    · rw [if_neg h2]
      simp only [List.any_eq_true, decide_eq_true_eq, not_exists, not_and] at h2
      constructor
      · intro hc
        exact absurd hc (by simp)
      · rintro ⟨_, r, hr, hs⟩
        exact absurd hs (h2 r hr)

theorem overall_pass_iff (L : List CheckResult) :
    determine_overall_result L = OverallResult.PASS ↔
      (¬ ∃ r ∈ L, r.status = ValidationStatus.FAIL) ∧
        ¬ ∃ r ∈ L, r.status = ValidationStatus.WARNING := by
  unfold determine_overall_result
  by_cases h : L.any (fun r => decide (r.status = ValidationStatus.FAIL))
  · rw [if_pos h]
    simp only [List.any_eq_true, decide_eq_true_eq] at h
    constructor
    · intro hc
      exact absurd hc (by simp)
    · rintro ⟨hnf, _⟩
      exact absurd (by simpa using h) hnf
  · rw [if_neg h]
    simp only [List.any_eq_true, decide_eq_true_eq, not_exists, not_and] at h
    by_cases h2 : L.any (fun r => decide (r.status = ValidationStatus.WARNING))
    · rw [if_pos h2]
      simp only [List.any_eq_true, decide_eq_true_eq] at h2
      constructor
      · intro hc
        exact absurd hc (by simp)
      · rintro ⟨_, hnw⟩
        exact absurd (by simpa using h2) hnw
    · rw [if_neg h2]
      simp only [List.any_eq_true, decide_eq_true_eq, not_exists, not_and] at h2
      refine ⟨fun _ => ⟨?_, ?_⟩, fun _ => rfl⟩
      · rintro ⟨r, hr, hs⟩
        exact absurd hs (h r hr)
      · rintro ⟨r, hr, hs⟩
        exact absurd hs (h2 r hr)

/-- C3: the overall verdict is Fail iff some result failed, else Warning iff
some result warned, else Pass; the empty list yields Pass; the verdict is
invariant under permutation; and appending a Fail record forces Fail. -/
theorem c3_overall_verdict :
    determine_overall_result [] = OverallResult.PASS ∧
    (∀ L : List CheckResult,
      (determine_overall_result L = OverallResult.FAIL ↔
        ∃ r ∈ L, r.status = ValidationStatus.FAIL) ∧
      (determine_overall_result L = OverallResult.WARNING ↔
        (¬ ∃ r ∈ L, r.status = ValidationStatus.FAIL) ∧
          ∃ r ∈ L, r.status = ValidationStatus.WARNING) ∧
      (determine_overall_result L = OverallResult.PASS ↔
        (¬ ∃ r ∈ L, r.status = ValidationStatus.FAIL) ∧
          ¬ ∃ r ∈ L, r.status = ValidationStatus.WARNING)) ∧
    (∀ L1 L2 : List CheckResult, L1.Perm L2 →
      determine_overall_result L1 = determine_overall_result L2) ∧
    (∀ (L : List CheckResult) (r : CheckResult), r.status = ValidationStatus.FAIL →
      determine_overall_result (L ++ [r]) = OverallResult.FAIL) := by
  refine ⟨rfl, fun L => ⟨overall_fail_iff L, overall_warning_iff L, overall_pass_iff L⟩,
    fun L1 L2 h => ?_, fun L r hr => ?_⟩
  · unfold determine_overall_result
    rw [any_perm_eq h, any_perm_eq h]
  · exact (overall_fail_iff _).mpr ⟨r, by simp, hr⟩

/-- C3 witness: concrete instances of the aggregation rule, including
permutation invariance and the appended-Fail law. -/
theorem c3_overall_verdict_witness :
    determine_overall_result
        [{ check_type := .JOB_NUMBER, status := .WARNING, description := "w" },
         { check_type := .REVISION, status := .FAIL, description := "f" }] =
      OverallResult.FAIL ∧
    determine_overall_result
        [{ check_type := .JOB_NUMBER, status := .WARNING, description := "w" }] =
      OverallResult.WARNING ∧
    determine_overall_result
        [{ check_type := .REVISION, status := .FAIL, description := "f" },
         { check_type := .JOB_NUMBER, status := .WARNING, description := "w" }] =
      determine_overall_result
        [{ check_type := .JOB_NUMBER, status := .WARNING, description := "w" },
         { check_type := .REVISION, status := .FAIL, description := "f" }] ∧
    determine_overall_result
        [{ check_type := .JOB_NUMBER, status := .PASS, description := "p" },
         { check_type := .REVISION, status := .FAIL, description := "f" }] =
      OverallResult.FAIL := by
  refine ⟨((c3_overall_verdict.2.1 _).1).mpr
      ⟨{ check_type := .REVISION, status := .FAIL, description := "f" }, by simp, rfl⟩,
    ((c3_overall_verdict.2.1 _).2.1).mpr
      ⟨by decide,
        ⟨{ check_type := .JOB_NUMBER, status := .WARNING, description := "w" }, by simp, rfl⟩⟩,
    c3_overall_verdict.2.2.1 _ _ (by decide),
    c3_overall_verdict.2.2.2 [{ check_type := .JOB_NUMBER, status := .PASS, description := "p" }]
      { check_type := .REVISION, status := .FAIL, description := "f" } rfl⟩

/-! ### Comparator lemmas -/

theorem matches_list_toFinset (A B : List String) :
    (compare_normalized_lists A B).matches_list.toFinset = A.toFinset ∩ B.toFinset := by
  ext x
  simp [compare_normalized_lists, List.mem_filter, List.mem_dedup]

theorem missing_in_second_toFinset (A B : List String) :
    (compare_normalized_lists A B).missing_in_second.toFinset = A.toFinset \ B.toFinset := by
  ext x
  simp [compare_normalized_lists, List.mem_filter, List.mem_dedup]

theorem missing_in_first_toFinset (A B : List String) :
    (compare_normalized_lists A B).missing_in_first.toFinset = B.toFinset \ A.toFinset := by
  ext x
  simp [compare_normalized_lists, List.mem_filter, List.mem_dedup]

theorem match_count_eq_card (A B : List String) :
    (compare_normalized_lists A B).match_count = (A.toFinset ∩ B.toFinset).card := by
  have hnd : (compare_normalized_lists A B).matches_list.Nodup := A.nodup_dedup.filter _
  have h1 : (compare_normalized_lists A B).matches_list.toFinset.card =
      (compare_normalized_lists A B).matches_list.length := List.toFinset_card_of_nodup hnd
  rw [← matches_list_toFinset A B, h1]
  rfl

/-- C4: with `SA`, `SB` the sets of elements of the two input lists,
`compare_normalized_lists` returns exactly the intersection and the two set
differences, the three cardinalities, and the percentage
`|SA ∩ SB| / max(|SA|, |SB|) * 100` (100 when both sets are empty); swapping
the arguments preserves the matches set and swaps the two missing sets.  (The
inputs are Lean lists, so immutability of the arguments is inherent to the
embedding.) -/
theorem c4_compare_normalized_lists (A B : List String) :
    (compare_normalized_lists A B).matches_list.toFinset = A.toFinset ∩ B.toFinset ∧
    (compare_normalized_lists A B).missing_in_second.toFinset = A.toFinset \ B.toFinset ∧
    (compare_normalized_lists A B).missing_in_first.toFinset = B.toFinset \ A.toFinset ∧
    (compare_normalized_lists A B).match_count = (A.toFinset ∩ B.toFinset).card ∧
    (compare_normalized_lists A B).total_unique_first = A.toFinset.card ∧
    (compare_normalized_lists A B).total_unique_second = B.toFinset.card ∧
    (compare_normalized_lists A B).match_percentage =
      (if A.toFinset = ∅ ∧ B.toFinset = ∅ then 100
       else ((A.toFinset ∩ B.toFinset).card : Rat) /
         ((max A.toFinset.card B.toFinset.card : Nat) : Rat) * 100) ∧
    (compare_normalized_lists A B).matches_list.toFinset =
      (compare_normalized_lists B A).matches_list.toFinset ∧
    (compare_normalized_lists A B).missing_in_second =
      (compare_normalized_lists B A).missing_in_first := by
  have hca : A.toFinset.card = A.dedup.length := List.card_toFinset A
  have hcb : B.toFinset.card = B.dedup.length := List.card_toFinset B
  refine ⟨matches_list_toFinset A B, missing_in_second_toFinset A B,
    missing_in_first_toFinset A B, match_count_eq_card A B, ?_, ?_, ?_, ?_, rfl⟩
  · rw [hca]; rfl
  · rw [hcb]; rfl
  · by_cases hAB : A.toFinset = ∅ ∧ B.toFinset = ∅
    · rw [if_pos hAB]
      have hA : A = [] := (List.toFinset_eq_empty_iff A).mp hAB.1
      have hB : B = [] := (List.toFinset_eq_empty_iff B).mp hAB.2
      subst hA
      subst hB
      rfl
    · rw [if_neg hAB]
      have hcm : ((A.toFinset ∩ B.toFinset).card : Rat) =
          ((compare_normalized_lists A B).match_count : Rat) := by
        rw [match_count_eq_card A B]
      have hcond : A.dedup ≠ [] ∨ B.dedup ≠ [] := by
        by_contra hc
        push_neg at hc
        refine hAB ⟨?_, ?_⟩
        · rw [(List.toFinset_eq_empty_iff A), ← List.dedup_eq_nil]
          exact hc.1
        · rw [(List.toFinset_eq_empty_iff B), ← List.dedup_eq_nil]
          exact hc.2
      show (compare_normalized_lists A B).match_percentage = _
      rw [hcm, hca, hcb]
      simp only [compare_normalized_lists, if_pos hcond]
  · rw [matches_list_toFinset A B, matches_list_toFinset B A, Finset.inter_comm]

/-! ### Check executor lemmas -/

theorem validate_job_numbers_missing {d : SessionData}
    (h : d.traveler_data = none ∨ d.bom_data = []) :
    validate_job_numbers d =
      [{ check_type := .JOB_NUMBER
         status := .FAIL
         description := "Missing required files for job number validation"
         details := some "Need both Traveler PDF and BOM Excel files" }] := by
  rw [validate_job_numbers, if_pos h]

theorem validate_job_numbers_present {d : SessionData} {t : DocData}
    (ht : d.traveler_data = some t) (hb : d.bom_data ≠ []) :
    validate_job_numbers d =
      d.bom_data.map (jobCheckForBom (t.job_numbers.map normalize_job_number)) := by
  have hcond : ¬ (d.traveler_data = none ∨ d.bom_data = []) := by
    rw [ht]
    simp [hb]
  rw [validate_job_numbers, if_neg hcond, ht]
  rfl

theorem validate_part_numbers_present {d : SessionData} {t : DocData}
    (ht : d.traveler_data = some t) (hb : d.bom_data ≠ []) :
    validate_part_numbers d =
      d.bom_data.map (partCheckForBom (t.part_numbers.map normalize_part_number)) := by
  have hcond : ¬ (d.traveler_data = none ∨ d.bom_data = []) := by
    rw [ht]
    simp [hb]
  rw [validate_part_numbers, if_neg hcond, ht]
  rfl

/-- C5 counterexample: the claim says the Fail result carries the raw
(pre-normalization) traveler job strings; the code joins the normalized
lists.  With raw traveler job `"12-345"` (which normalizes to `"12345"`)
against BOM job `"99999"`, the emitted Fail carries `"12345"`, not
`"12-345"`. -/
theorem c5_counterexample :
    (validate_job_numbers
        { traveler_data := some { job_numbers := ["12-345"] }
          image_data := none
          bom_data := [{ job_numbers := ["99999"] }] }).map
        (fun r => r.expected_value) = [some "12345"] ∧
    (validate_job_numbers
        { traveler_data := some { job_numbers := ["12-345"] }
          image_data := none
          bom_data := [{ job_numbers := ["99999"] }] }).map
        (fun r => r.expected_value) ≠ [some "12-345"] := by
  exact ⟨rfl, by decide⟩

/-- C5 amended: the Job Number check emits exactly one Fail when the Traveler
data or every BOM bag is absent; otherwise, per BOM bag, it normalizes both
job-number lists and emits one Pass when the intersection is non-empty and
otherwise one Fail — whose expected_value and actual_value are the NORMALIZED
(not raw) traveler and BOM job-number strings joined with commas. -/
theorem c5_job_number_check (d : SessionData) :
    ((d.traveler_data = none ∨ d.bom_data = []) →
      validate_job_numbers d =
        [{ check_type := .JOB_NUMBER
           status := .FAIL
           description := "Missing required files for job number validation"
           details := some "Need both Traveler PDF and BOM Excel files" }]) ∧
    (∀ t, d.traveler_data = some t → d.bom_data ≠ [] →
      (validate_job_numbers d).map
          (fun r => (r.check_type, r.status, r.expected_value, r.actual_value)) =
        d.bom_data.map (fun bom =>
          (CheckType.JOB_NUMBER,
           if (compare_normalized_lists (t.job_numbers.map normalize_job_number)
                 (bom.job_numbers.map normalize_job_number)).matches_list ≠ [] then
             ValidationStatus.PASS
           else ValidationStatus.FAIL,
           some (joinComma (t.job_numbers.map normalize_job_number)),
           some (joinComma (bom.job_numbers.map normalize_job_number))))) := by
  refine ⟨validate_job_numbers_missing, fun t ht hb => ?_⟩
  rw [validate_job_numbers_present ht hb, List.map_map]
  apply List.map_congr_left
  intro bom _
  simp only [Function.comp]
  by_cases hm : (compare_normalized_lists (t.job_numbers.map normalize_job_number)
      (bom.job_numbers.map normalize_job_number)).matches_list ≠ []
  · simp only [jobCheckForBom, if_pos hm]
  · simp only [jobCheckForBom, if_neg hm]

/-- C5 witness: Scenario A — traveler job 12345 against an identical BOM job
yields one Pass carrying the joined normalized values; and with no BOM bag at
all the check emits the single missing-files Fail. -/
theorem c5_job_number_check_witness :
    (validate_job_numbers
        { traveler_data := some { job_numbers := ["12345"] }
          image_data := none
          bom_data := [{ job_numbers := ["12345"] }] }).map
        (fun r => (r.check_type, r.status, r.expected_value, r.actual_value)) =
      [(CheckType.JOB_NUMBER, ValidationStatus.PASS, some "12345", some "12345")] ∧
    validate_job_numbers { traveler_data := none, image_data := none, bom_data := [] } =
      [{ check_type := .JOB_NUMBER
         status := .FAIL
         description := "Missing required files for job number validation"
         details := some "Need both Traveler PDF and BOM Excel files" }] := by
  constructor
  · exact Eq.trans
      ((c5_job_number_check
          { traveler_data := some { job_numbers := ["12345"] }
            image_data := none
            bom_data := [{ job_numbers := ["12345"] }] }).2
        { job_numbers := ["12345"] } rfl (by decide))
      (by decide)
  · exact (c5_job_number_check
      { traveler_data := none, image_data := none, bom_data := [] }).1 (Or.inl rfl)

/-- C6: with Traveler data and at least one BOM bag present, the Part Number
check emits exactly one result per BOM bag, chosen in priority order from the
comparison of normalized lists (traveler first, BOM second): Fail when some
traveler part is missing from the BOM, else Warning when some BOM part is
missing from the traveler, else Pass. -/
theorem c6_part_number_check (d : SessionData) (t : DocData)
    (ht : d.traveler_data = some t) (hb : d.bom_data ≠ []) :
    (validate_part_numbers d).map (fun r => (r.check_type, r.status)) =
      d.bom_data.map (fun bom =>
        (CheckType.PART_NUMBER,
         if (compare_normalized_lists (t.part_numbers.map normalize_part_number)
              (bom.part_numbers.map normalize_part_number)).missing_in_second ≠ [] then
           ValidationStatus.FAIL
         else if (compare_normalized_lists (t.part_numbers.map normalize_part_number)
              (bom.part_numbers.map normalize_part_number)).missing_in_first ≠ [] then
           ValidationStatus.WARNING
         else ValidationStatus.PASS)) := by
  rw [validate_part_numbers_present ht hb, List.map_map]
  apply List.map_congr_left
  intro bom _
  simp only [Function.comp]
  by_cases h2 : (compare_normalized_lists (t.part_numbers.map normalize_part_number)
      (bom.part_numbers.map normalize_part_number)).missing_in_second ≠ []
  · simp only [partCheckForBom, if_pos h2]
  · by_cases h1 : (compare_normalized_lists (t.part_numbers.map normalize_part_number)
        (bom.part_numbers.map normalize_part_number)).missing_in_first ≠ []
    · simp only [partCheckForBom, if_neg h2, if_pos h1]
    · simp only [partCheckForBom, if_neg h2, if_neg h1]

/-- C6 witness: a traveler part absent from the BOM produces a Fail (priority
over the BOM-side surplus that would alone produce a Warning). -/
theorem c6_part_number_check_witness :
    (validate_part_numbers
        { traveler_data := some { part_numbers := ["PCA-1111-A"] }
          image_data := none
          bom_data := [{ part_numbers := ["PCA-2222-B"] }] }).map
        (fun r => (r.check_type, r.status)) =
      [(CheckType.PART_NUMBER, ValidationStatus.FAIL)] := by
  exact Eq.trans
    (c6_part_number_check
      { traveler_data := some { part_numbers := ["PCA-1111-A"] }
        image_data := none
        bom_data := [{ part_numbers := ["PCA-2222-B"] }] }
      { part_numbers := ["PCA-1111-A"] } rfl (by decide))
    (by decide)

/-! ### Revision check lemmas -/

/-- Policy described by the spec for one normalized traveler revision against
one BOM bag's normalized revisions: collect the BOM revisions sharing the
traveler revision's first character; none → Fail, a match set not containing
the traveler revision itself → Warning with the first such variant, otherwise
→ Pass. -/
def revisionResultSpec (t : String) (bom_revisions : List String) : CheckResult :=
  let matching := bom_revisions.filter (fun b => (t.data.take 1).isPrefixOf b.data)
  if matching = [] then
    { check_type := .REVISION
      status := .FAIL
      description := "Revision " ++ t ++ " from Traveler not found in BOM"
      expected_value := some t
      actual_value := some (joinComma bom_revisions) }
  else if t ∈ matching then
    { check_type := .REVISION
      status := .PASS
      description := "Revision " ++ t ++ " matches across sources"
      expected_value := some t
      actual_value := some t }
  else
    { check_type := .REVISION
      status := .WARNING
      description := "Revision format difference: Traveler has " ++ t ++
        ", BOM has " ++ matching.headI
      expected_value := some t
      actual_value := some matching.headI }

theorem except_ok_bind {ε α β : Type} (a : α) (f : α → Except ε β) :
    (Except.ok a >>= f : Except ε β) = f a := rfl

theorem matchingBomRevs_ok {t : String} (ht : t ≠ "") (l : List String) :
    matchingBomRevs t l = .ok (l.filter (fun b => (t.data.take 1).isPrefixOf b.data)) := by
  induction l with
  | nil => rfl
  | cons b rest ih =>
    rw [matchingBomRevs, if_neg ht]
    simp only [ih, except_ok_bind]
    by_cases hsw : (t.data.take 1).isPrefixOf b.data
    · rw [if_pos hsw, if_pos ht]
      have hf : List.filter (fun s => (t.data.take 1).isPrefixOf s.data) (b :: rest) =
          b :: List.filter (fun s => (t.data.take 1).isPrefixOf s.data) rest := by
        simp [List.filter_cons, hsw]
      rw [hf]
      rfl
    · rw [if_neg hsw]
      have hf : List.filter (fun s => (t.data.take 1).isPrefixOf s.data) (b :: rest) =
          List.filter (fun s => (t.data.take 1).isPrefixOf s.data) rest := by
        simp [List.filter_cons, hsw]
      rw [hf]
      rfl

theorem revisionCheckOne_ok {t : String} (ht : t ≠ "") (l : List String) :
    revisionCheckOne t l = .ok (revisionResultSpec t l) := by
  rw [revisionCheckOne, matchingBomRevs_ok ht]
  simp only [except_ok_bind, revisionResultSpec]
  by_cases h1 : l.filter (fun b => (t.data.take 1).isPrefixOf b.data) = []
  · rw [if_pos h1, if_pos h1]
    rfl
  · rw [if_neg h1, if_neg h1]
    by_cases h2 : t ∈ l.filter (fun b => (t.data.take 1).isPrefixOf b.data)
    · rw [if_pos h2, if_pos h2]
      rfl
    · rw [if_neg h2, if_neg h2]
      rfl

theorem exceptMap_ok {α β : Type} {f : α → Except String β} {g : α → β} {l : List α}
    (h : ∀ a ∈ l, f a = .ok (g a)) : exceptMap f l = .ok (l.map g) := by
  induction l with
  | nil => rfl
  | cons a rest ih =>
    rw [exceptMap, h a (by simp), ih (fun x hx => h x (by simp [hx]))]
    rfl

/-- C7 amended: with Traveler and at least one BOM bag present, and every normalized
traveler revision non-empty (the empty case raises instead, see the C1
theorem), the Revision check emits per BOM bag and per traveler revision
exactly the spec policy result: Fail when no BOM revision shares the first
character, Warning when only a same-letter variant matches (e.g. traveler "F"
against BOM "F2"), Pass when the revision itself is among the matches. -/
theorem c7_revision_check (d : SessionData) (t : DocData)
    (ht : d.traveler_data = some t) (hb : d.bom_data ≠ [])
    (hnz : ∀ r ∈ t.revisions, normalize_revision r ≠ "") :
    validate_revisions d =
      Except.ok ((d.bom_data.map (fun bom =>
        (t.revisions.map normalize_revision).map (fun tr =>
          revisionResultSpec tr (bom.revisions.map normalize_revision)))).flatten) := by
  have hcond : ¬ (d.traveler_data = none ∨ d.bom_data = []) := by
    rw [ht]
    simp [hb]
  rw [validate_revisions, if_neg hcond, ht]
  have houter : exceptMap
      (fun bom =>
        exceptMap
          (fun tr => revisionCheckOne tr (bom.revisions.map normalize_revision))
          (t.revisions.map normalize_revision))
      d.bom_data =
      .ok (d.bom_data.map (fun bom =>
        (t.revisions.map normalize_revision).map (fun tr =>
          revisionResultSpec tr (bom.revisions.map normalize_revision)))) := by
    apply exceptMap_ok
    intro bom _
    apply exceptMap_ok
    intro tr htr
    obtain ⟨r, hr, rfl⟩ := List.mem_map.mp htr
    exact revisionCheckOne_ok (hnz r hr) _
  show Except.map List.flatten
      (exceptMap
        (fun bom =>
          exceptMap
            (fun tr => revisionCheckOne tr (bom.revisions.map normalize_revision))
            (t.revisions.map normalize_revision))
        d.bom_data) = _
  rw [houter]
  rfl

/-- C7 counterexample: the claim quantifies over all sessions with Traveler
and BOM present, promising one result per BOM bag and per non-empty
normalized traveler revision.  With traveler revisions `["F", "REV"]`
(normalizing to `"F"` and `""`) and one BOM bag holding revision `"F2"`, the
claim demands exactly one result for the non-empty revision `"F"`, but the
check raises on the empty one and emits no result at all. -/
theorem c7_counterexample :
    validate_revisions
        { traveler_data := some { revisions := ["F", "REV"] }
          image_data := none
          bom_data := [{ revisions := ["F2"] }] } =
      Except.error "string index out of range" ∧
    ∀ l : List CheckResult,
      validate_revisions
          { traveler_data := some { revisions := ["F", "REV"] }
            image_data := none
            bom_data := [{ revisions := ["F2"] }] } ≠
        Except.ok l := by
  refine ⟨rfl, fun l h => ?_⟩
  rw [show validate_revisions
      { traveler_data := some { revisions := ["F", "REV"] }
        image_data := none
        bom_data := [{ revisions := ["F2"] }] } =
      Except.error "string index out of range" from rfl] at h
  exact Except.noConfusion h

/-- C7 witness: Scenario C — traveler revision "F" against BOM revision "F2"
yields exactly one Warning, not a Fail. -/
theorem c7_revision_check_witness :
    validate_revisions
      { traveler_data := some { revisions := ["F"] }
        image_data := none
        bom_data := [{ revisions := ["F2"] }] } =
      Except.ok
        [{ check_type := .REVISION
           status := .WARNING
           description := "Revision format difference: Traveler has F, BOM has F2"
           expected_value := some "F"
           actual_value := some "F2" }] := by
  have h := c7_revision_check
    { traveler_data := some { revisions := ["F"] }
      image_data := none
      bom_data := [{ revisions := ["F2"] }] }
    { revisions := ["F"] } rfl (by decide) (by decide)
  rw [h]
  rfl

/-! ### Serial check lemmas -/

theorem serial_checks_missing {d : SessionData}
    (h : d.traveler_data = none ∨ d.image_data = none) :
    validate_board_serials d =
      [{ check_type := .BOARD_SERIAL
         status := .WARNING
         description := "Cannot validate board serials - missing Traveler or Image data" }] ∧
    validate_unit_serials d =
      [{ check_type := .UNIT_SERIAL
         status := .WARNING
         description := "Cannot validate unit serials - missing Traveler or Image data" }] := by
  unfold validate_board_serials validate_unit_serials
  rcases h with h | h
  · rw [h]
    exact ⟨rfl, rfl⟩
  · rw [h]
    cases d.traveler_data <;> exact ⟨rfl, rfl⟩

/-- C8: the Board Serial and Unit Serial checks each emit exactly one Warning
when the Traveler or Image data is absent; otherwise each normalizes the
traveler-side serials (preferring a non-empty Seq 20 sub-bag list over the
traveler's top-level list), normalizes the image-side serials, compares them,
and emits one Pass when the intersection is non-empty, otherwise one Fail. -/
theorem c8_serial_checks (d : SessionData) :
    ((d.traveler_data = none ∨ d.image_data = none) →
      validate_board_serials d =
        [{ check_type := .BOARD_SERIAL
           status := .WARNING
           description := "Cannot validate board serials - missing Traveler or Image data" }] ∧
      validate_unit_serials d =
        [{ check_type := .UNIT_SERIAL
           status := .WARNING
           description := "Cannot validate unit serials - missing Traveler or Image data" }]) ∧
    (∀ t i, d.traveler_data = some t → d.image_data = some i →
      (validate_board_serials d).map (fun r => (r.check_type, r.status)) =
        [(CheckType.BOARD_SERIAL,
          if (compare_normalized_lists
              ((if t.seq_20_data.board_serials ≠ [] then t.seq_20_data.board_serials
                else t.board_serials).map normalize_board_serial)
              (i.board_serials.map normalize_board_serial)).matches_list ≠ [] then
            ValidationStatus.PASS
          else ValidationStatus.FAIL)] ∧
      (validate_unit_serials d).map (fun r => (r.check_type, r.status)) =
        [(CheckType.UNIT_SERIAL,
          if (compare_normalized_lists
              ((if t.seq_20_data.unit_serials ≠ [] then t.seq_20_data.unit_serials
                else t.unit_serials).map normalize_unit_serial)
              (i.unit_serials.map normalize_unit_serial)).matches_list ≠ [] then
            ValidationStatus.PASS
          else ValidationStatus.FAIL)]) := by
  refine ⟨serial_checks_missing, fun t i ht hi => ⟨?_, ?_⟩⟩
  · rw [validate_board_serials, ht, hi]
    by_cases hm : (compare_normalized_lists
        ((if t.seq_20_data.board_serials ≠ [] then t.seq_20_data.board_serials
          else t.board_serials).map normalize_board_serial)
        (i.board_serials.map normalize_board_serial)).matches_list ≠ []
    · simp only [if_pos hm]
      rfl
    · simp only [if_neg hm]
      rfl
  · rw [validate_unit_serials, ht, hi]
    by_cases hm : (compare_normalized_lists
        ((if t.seq_20_data.unit_serials ≠ [] then t.seq_20_data.unit_serials
          else t.unit_serials).map normalize_unit_serial)
        (i.unit_serials.map normalize_unit_serial)).matches_list ≠ []
    · simp only [if_pos hm]
      rfl
    · simp only [if_neg hm]
      rfl

/-- C8 witness: Scenario D with no Image bag gives one Warning from each
serial check; with both bags present the Seq 20 serial is preferred and a
matching image serial yields a Pass from each check. -/
theorem c8_serial_checks_witness :
    validate_board_serials { traveler_data := some {}, image_data := none, bom_data := [] } =
      [{ check_type := .BOARD_SERIAL
         status := .WARNING
         description := "Cannot validate board serials - missing Traveler or Image data" }] ∧
    (validate_board_serials
        { traveler_data := some
            { board_serials := ["99999-0000"]
              seq_20_data := { board_serials := ["54321_1234"], unit_serials := ["4321"] } }
          image_data := some
            { board_serials := ["VGN-54321-1234"], unit_serials := ["INF-4321"] }
          bom_data := [] }).map (fun r => (r.check_type, r.status)) =
      [(CheckType.BOARD_SERIAL, ValidationStatus.PASS)] ∧
    (validate_unit_serials
        { traveler_data := some
            { board_serials := ["99999-0000"]
              seq_20_data := { board_serials := ["54321_1234"], unit_serials := ["4321"] } }
          image_data := some
            { board_serials := ["VGN-54321-1234"], unit_serials := ["INF-4321"] }
          bom_data := [] }).map (fun r => (r.check_type, r.status)) =
      [(CheckType.UNIT_SERIAL, ValidationStatus.PASS)] := by
  refine ⟨((c8_serial_checks
      { traveler_data := some {}, image_data := none, bom_data := [] }).1 (Or.inr rfl)).1,
    ?_, ?_⟩
  · exact Eq.trans
      (((c8_serial_checks _).2 _ _ rfl rfl).1)
      (by decide)
  · exact Eq.trans
      (((c8_serial_checks _).2 _ _ rfl rfl).2)
      (by decide)

/-- C10: with the Traveler absent or no BOM bag, the Part Number and Revision
checks return the empty list (no finding at all), while in the analogous
missing-input situations the Job Number check emits one Fail and the serial
checks each emit one Warning. -/
theorem c10_missing_input_asymmetry (d : SessionData) :
    ((d.traveler_data = none ∨ d.bom_data = []) →
      validate_part_numbers d = [] ∧
      validate_revisions d = Except.ok [] ∧
      (validate_job_numbers d).map (fun r => (r.check_type, r.status)) =
        [(CheckType.JOB_NUMBER, ValidationStatus.FAIL)]) ∧
    ((d.traveler_data = none ∨ d.image_data = none) →
      (validate_board_serials d).map (fun r => (r.check_type, r.status)) =
        [(CheckType.BOARD_SERIAL, ValidationStatus.WARNING)] ∧
      (validate_unit_serials d).map (fun r => (r.check_type, r.status)) =
        [(CheckType.UNIT_SERIAL, ValidationStatus.WARNING)]) := by
  constructor
  · intro h
    refine ⟨?_, ?_, ?_⟩
    · rw [validate_part_numbers, if_pos h]
    · rw [validate_revisions, if_pos h]
    · rw [validate_job_numbers_missing h]
      rfl
  · intro h
    obtain ⟨hbs, hus⟩ := serial_checks_missing h
    rw [hbs, hus]
    exact ⟨rfl, rfl⟩

/-- C10 witness: a session with only an image bag exercises both halves. -/
theorem c10_missing_input_asymmetry_witness :
    validate_part_numbers { traveler_data := none, image_data := some {}, bom_data := [] } = [] ∧
    validate_revisions { traveler_data := none, image_data := some {}, bom_data := [] } =
      Except.ok [] ∧
    (validate_job_numbers { traveler_data := none, image_data := some {}, bom_data := [] }).map
        (fun r => (r.check_type, r.status)) =
      [(CheckType.JOB_NUMBER, ValidationStatus.FAIL)] ∧
    (validate_board_serials { traveler_data := none, image_data := some {}, bom_data := [] }).map
        (fun r => (r.check_type, r.status)) =
      [(CheckType.BOARD_SERIAL, ValidationStatus.WARNING)] := by
  obtain ⟨h1, h2, h3⟩ := (c10_missing_input_asymmetry
    { traveler_data := none, image_data := some {}, bom_data := [] }).1 (Or.inl rfl)
  obtain ⟨h4, _⟩ := (c10_missing_input_asymmetry
    { traveler_data := none, image_data := some {}, bom_data := [] }).2 (Or.inl rfl)
  exact ⟨h1, h2, h3, h4⟩

/-! ### Serial normalization characterization -/

theorem string_data_ne {s : String} (h : s ≠ "") : s.data ≠ [] := by
  intro hd
  exact h (String.ext hd)

/-- C9: both serial normalizers first clean (strip, uppercase, underscore to
hyphen); a cleaned string already carrying its prefix is returned unchanged;
otherwise the first digit run (digits, an optional single separator, more
digits) is extracted and the prefix prepended, the cleaned string passing
through unchanged when it holds no digits; the empty string maps to itself;
`normalize_board_serial` uses prefix VGN and `normalize_unit_serial` uses
INF, as in Scenario E. -/
theorem c9_serial_normalization :
    normalize_board_serial "" = "" ∧
    normalize_unit_serial "" = "" ∧
    normalize_board_serial "54321_1234" = "VGN-54321-1234" ∧
    normalize_unit_serial "4321" = "INF-4321" ∧
    (∀ s : String, s ≠ "" → "VGN-".data.isPrefixOf (cleanChars s.data) = true →
      normalize_board_serial s = ⟨cleanChars s.data⟩) ∧
    (∀ s : String, s ≠ "" → "VGN-".data.isPrefixOf (cleanChars s.data) = false →
      ∀ n, searchNumberPart (cleanChars s.data) = some n →
        normalize_board_serial s = ⟨'V' :: 'G' :: 'N' :: '-' :: n.map replChar⟩) ∧
    (∀ s : String, s ≠ "" → "VGN-".data.isPrefixOf (cleanChars s.data) = false →
      searchNumberPart (cleanChars s.data) = none →
      normalize_board_serial s = ⟨cleanChars s.data⟩) ∧
    (∀ s : String, s ≠ "" → "INF-".data.isPrefixOf (cleanChars s.data) = true →
      normalize_unit_serial s = ⟨cleanChars s.data⟩) ∧
    (∀ s : String, s ≠ "" → "INF-".data.isPrefixOf (cleanChars s.data) = false →
      ∀ n, searchNumberPart (cleanChars s.data) = some n →
        normalize_unit_serial s = ⟨'I' :: 'N' :: 'F' :: '-' :: n.map replChar⟩) ∧
    (∀ s : String, s ≠ "" → "INF-".data.isPrefixOf (cleanChars s.data) = false →
      searchNumberPart (cleanChars s.data) = none →
      normalize_unit_serial s = ⟨cleanChars s.data⟩) := by
  refine ⟨rfl, rfl, by decide, by decide, ?_, ?_, ?_, ?_, ?_, ?_⟩
  · intro s hs hpre
    refine congrArg String.mk ?_
    rw [normSerialCore_of_ne (string_data_ne hs),
      show ("VGN".data ++ ['-']) = "VGN-".data from rfl, if_pos hpre]
  · intro s hs hpre n hn
    refine congrArg String.mk ?_
    rw [normSerialCore_of_ne (string_data_ne hs),
      show ("VGN".data ++ ['-']) = "VGN-".data from rfl, if_neg (by simp [hpre]), hn]
    rfl
  · intro s hs hpre hn
    refine congrArg String.mk ?_
    rw [normSerialCore_of_ne (string_data_ne hs),
      show ("VGN".data ++ ['-']) = "VGN-".data from rfl, if_neg (by simp [hpre]), hn]
  · intro s hs hpre
    refine congrArg String.mk ?_
    rw [normSerialCore_of_ne (string_data_ne hs),
      show ("INF".data ++ ['-']) = "INF-".data from rfl, if_pos hpre]
  · intro s hs hpre n hn
    refine congrArg String.mk ?_
    rw [normSerialCore_of_ne (string_data_ne hs),
      show ("INF".data ++ ['-']) = "INF-".data from rfl, if_neg (by simp [hpre]), hn]
    rfl
  · intro s hs hpre hn
    refine congrArg String.mk ?_
    rw [normSerialCore_of_ne (string_data_ne hs),
      show ("INF".data ++ ['-']) = "INF-".data from rfl, if_neg (by simp [hpre]), hn]

/-- C9 witness: one concrete input per branch of the characterization. -/
theorem c9_serial_normalization_witness :
    normalize_board_serial " vgn-123 " = "VGN-123" ∧
    normalize_board_serial "SN 77" = "VGN-77" ∧
    normalize_board_serial "ABC" = "ABC" ∧
    normalize_unit_serial " inf-9 " = "INF-9" ∧
    normalize_unit_serial "u10" = "INF-10" ∧
    normalize_unit_serial "X" = "X" := by
  refine ⟨?_, ?_, ?_, ?_, ?_, ?_⟩
  · exact (c9_serial_normalization.2.2.2.2.1 " vgn-123 " (by decide) (by decide)).trans
      (by decide)
  · exact (c9_serial_normalization.2.2.2.2.2.1 "SN 77" (by decide) (by decide) ['7', '7']
      (by decide)).trans (by decide)
  · exact (c9_serial_normalization.2.2.2.2.2.2.1 "ABC" (by decide) (by decide)
      (by decide)).trans (by decide)
  · exact (c9_serial_normalization.2.2.2.2.2.2.2.1 " inf-9 " (by decide) (by decide)).trans
      (by decide)
  · exact (c9_serial_normalization.2.2.2.2.2.2.2.2.1 "u10" (by decide) (by decide) ['1', '0']
      (by decide)).trans (by decide)
  · exact (c9_serial_normalization.2.2.2.2.2.2.2.2.2 "X" (by decide) (by decide)
      (by decide)).trans (by decide)

end QC
